import Mathlib

/-!
Firelet compiler-and-deployer: a shallow embedding of src/lib/flcore.py.

This file embeds the parts of firelet's `flcore.py` that the specification
claims talk about: the model entities (`Host`, `Network`, host groups,
services, rules), CIDR arithmetic (`net_addr`, containment), host-group
flattening (`HostGroup._flatten` / `flat`), the rule compiler
(`FireSet.compile_rules`), the per-interface grouping (`FireSet.compile_dict`),
the forwarding predicate (`FireSet._oo_forwarded`), the deploy guard
(`FireSet.deploy`) and rule reordering (`Rules.moveup` / `movedown`).

Modelling conventions:
* IPv4 addresses are modelled as `Nat` (the numeric value of the canonical
  dotted-quad string the source stores in `ip_addr`); the source's string
  renderings are recovered through `ipStr`, which prints the dotted quad.
  Equality of canonical dotted-quad strings coincides with equality of the
  numeric values, which the rendering lemmas below make explicit.
* Python dicts built by comprehension are association lists looked up with
  `pyDict`, where a later binding for the same key wins, as in Python.
* Python exceptions (`assert`, `Alert`, `KeyError`, `TypeError`, hitting the
  interpreter recursion limit) are an `Except Err` result; an exception that
  a caller swallows (as `Rules.moveup` does) is modelled by returning the
  unchanged value, mirroring the source's observable behaviour.
* Remote-shell interaction is out of scope; `deploy` records which phases of
  the orchestration are reached.
-/

/-- Exceptions raised by the source code. -/
inductive Err where
  /-- Embeds `assert not self.save_needed()` failing. -/
  | saveRequired : Err
  /-- any other Python `assert` failing, with a tag for the message. -/
  | assertFail : String → Err
  /-- a raised `Alert`, with a tag for the message. -/
  | alert : String → Err
  /-- a Python `KeyError` on a dict subscript. -/
  | keyError : String → Err
  /-- the interpreter's maximum recursion depth being exceeded. -/
  | recursionLimit : Err
  /-- a Python `TypeError`. -/
  | typeError : Err
  /-- a Python `NameError` (an undefined variable being read). -/
  | nameError : String → Err
deriving DecidableEq

/-- Lookup in a Python dict built from a list of bindings: a later binding
for the same key overwrites an earlier one. -/
def pyDict {α : Type} : List (String × α) → String → Option α
  | [], _ => none
  | (k, v) :: rest, n =>
    match pyDict rest n with
    | some r => some r
    | none => if k = n then some v else none

/-- Decimal digit character. -/
def digitChar (d : Nat) : Char := Char.ofNat (48 + d)

/-- Little-endian decimal digits of `n`, with fuel (always called with
fuel greater than `n`, which suffices). -/
def decDigitsAux : Nat → Nat → List Char
  | 0, _ => []
  | _ + 1, 0 => []
  | fuel + 1, n + 1 => digitChar ((n + 1) % 10) :: decDigitsAux fuel ((n + 1) / 10)

/-- Decimal rendering of a natural number, as Python's `str` produces it. -/
def natStr (n : Nat) : String :=
  if n = 0 then "0" else ⟨(decDigitsAux (n + 1) n).reverse⟩

/-- Value of a most-significant-digit-first decimal digit string. -/
def valMSB (l : List Char) : Nat := l.foldl (fun acc c => 10 * acc + (c.toNat - 48)) 0

/-- Decimal rendering of an integer, as Python's `str` produces it. -/
def intStr (i : Int) : String :=
  if i < 0 then "-" ++ natStr i.natAbs else natStr i.toNat

/-- Python's `int(s)` on a decimal string (an optional sign followed by
digits); `none` models the `ValueError` branch. -/
def pyIntDigits : List Char → Option Nat
  | [] => none
  | l => if l.all (fun c => 48 ≤ c.toNat ∧ c.toNat ≤ 57) then some (valMSB l) else none

/-- Python's `int(s)` for the strings the model stores (e.g. `log_level`). -/
def pyInt (s : String) : Option Int :=
  match s.data with
  | '-' :: rest => (pyIntDigits rest).map (fun n => -(n : Int))
  | '+' :: rest => (pyIntDigits rest).map (fun n => (n : Int))
  | l => (pyIntDigits l).map (fun n => (n : Int))

/-- Embeds `needle in hay` on Python strings: substring containment. -/
def strIn (needle hay : String) : Bool :=
  hay.data.tails.any (fun t => needle.data.isPrefixOf t)

/-- Lower-casing of an ASCII character, as `str.lower` does on the protocol
names the source handles. -/
def charLower (c : Char) : Char :=
  if 65 ≤ c.toNat ∧ c.toNat ≤ 90 then Char.ofNat (c.toNat + 32) else c

/-- Embeds `s.lower()` on the ASCII strings the source handles. -/
def strLower (s : String) : String := ⟨s.data.map charLower⟩

/-- Embeds `validc` (flcore.py line 65): a character is acceptable when its code is
strictly between 31 and 127 and is none of 34, 39, 60, 62, 96. -/
def validc (c : Char) : Bool :=
  31 < c.toNat && c.toNat < 127 &&
    !(c.toNat = 34 || c.toNat = 39 || c.toNat = 60 || c.toNat = 62 || c.toNat = 96)

/-- Embeds `net_addr(a, n)` (flcore.py line 448): the network address of `a/n`,
i.e. `a` with all but the top `n` of its 32 bits cleared.  The source
delegates to `IPNetwork('%s/%d' % (a, n)).network`; keeping the top `n`
bits is that library call's semantics. -/
def net_addr (a n : Nat) : Nat := a / 2 ^ (32 - n) * 2 ^ (32 - n)

/-- One row of the hosts table (flcore.py `Host.__init__`).  `masklen` is the
integer value of the CSV field; `local_fw`, `network_fw` and `mng` keep
their textual "1"/"0" encoding, which is what the source compares against. -/
structure Host where
  hostname : String
  iface : String
  ip_addr : Nat
  masklen : Nat
  local_fw : String
  network_fw : String
  mng : String
  routed : List String
deriving DecidableEq

/-- A named network (flcore.py `Network`); `Network.make` below performs the
canonicalization done by `Network.update` on construction. -/
structure Network where
  name : String
  ip_addr : Nat
  masklen : Nat
deriving DecidableEq

/-- Embeds `Network.__init__` via `update`: the stored address is re-canonicalized
to the network address. -/
def Network.make (name : String) (addr masklen : Nat) : Network :=
  { name := name, ip_addr := net_addr addr masklen, masklen := masklen }

/-- Embeds `Host.mynetwork` (flcore.py line 125): the unnamed directly connected
network of the host. -/
def Host.mynetwork (h : Host) : Network := Network.make "" h.ip_addr h.masklen

/-- A resolved rule endpoint: a concrete host interface or a network.  The
source uses the Python objects themselves; the wildcard `*` resolves to
`None` and is modelled by `Option Endpoint` with `none`. -/
inductive Endpoint where
  | host : Host → Endpoint
  | net : Network → Endpoint
deriving DecidableEq

/-- The `ip_addr` attribute of an endpoint object. -/
def epIp : Endpoint → Nat
  | .host h => h.ip_addr
  | .net n => n.ip_addr

/-- Dotted-quad rendering of an IPv4 address value, as `str(IPAddress)`
prints the canonical strings the source stores. -/
def ipStr (a : Nat) : String :=
  natStr (a / 16777216 % 256) ++ "." ++ natStr (a / 65536 % 256) ++ "." ++
    natStr (a / 256 % 256) ++ "." ++ natStr (a % 256)

/-- Embeds `ipt()` (flcore.py lines 111 and 134): the iptables rendering of an
endpoint; a bare address for a host, `addr/masklen` for a network. -/
def ipt : Endpoint → String
  | .host h => ipStr h.ip_addr
  | .net n => ipStr n.ip_addr ++ "/" ++ natStr n.masklen

/-- Embeds `h in e` for a host `h` (flcore.py `Host.__contains__` line 115 and
`Network.__contains__` line 146): hosts are compared by address, a network
contains a host whose address masked by the network's prefix equals the
network address. -/
def epContainsHost (e : Endpoint) (h : Host) : Bool :=
  match e with
  | .host d => h.ip_addr == d.ip_addr
  | .net n => net_addr h.ip_addr n.masklen == n.ip_addr

/-- Embeds `Network.__contains__` (flcore.py line 146) applied to a host or a
network object. -/
def Network.containsEp (n : Network) (e : Endpoint) : Bool :=
  match e with
  | .host h => net_addr h.ip_addr n.masklen == n.ip_addr
  | .net m => (net_addr m.ip_addr n.masklen == n.ip_addr) && (m.masklen ≥ n.masklen)

/-- Embeds `Network.__contains__` on a possibly-`None` argument: for `None` neither
isinstance branch fires, the method returns `None`, which is falsy. -/
def Network.containsOEp (n : Network) (e : Option Endpoint) : Bool :=
  match e with
  | none => false
  | some x => n.containsEp x

/-- Python `src in rnet` where `rnet` is an `(ip_addr, masklen)` pair (the
tuples `compile_rules` line 747 builds) and `src` is a `Host` or `Network`
object: tuple membership compares the object with each component with `==`,
and an object compares unequal to a string and to an integer, so the test
is always false. -/
def pyTupleMem (_ : Endpoint) (_ : Nat × Nat) : Bool := false

/-- Embeds `dst not in rnet` for a possibly-`None` `dst` and a tuple `rnet`: `None`
is also unequal to both components, so the membership is always false. -/
def pyTupleMemO (_ : Option Endpoint) (_ : Nat × Nat) : Bool := false

/-- Embeds `FireSet._oo_forwarded` (flcore.py line 584) exactly as `compile_rules`
calls it on line 753: `routedNets` is the list of raw `(ip_addr, masklen)`
pairs from the `net` dict, and `otherIfaces` is passed but never read. -/
def oo_forwarded (src dst : Option Endpoint) (me : Host)
    (routedNets : List (Nat × Nat)) (otherIfaces : List Host) : Bool :=
  match src with
  | none => true
  | some s =>
    if epIp s == me.ip_addr then false
    else if me.mynetwork.containsEp s then
      !(me.mynetwork.containsOEp dst)
    else
      let _ := otherIfaces
      routedNets.any (fun rnet => pyTupleMem s rnet && !(pyTupleMemO dst rnet))

/-- Modelled from the spec (§4.4.1), for comparison with `oo_forwarded`: the
forwarding predicate with `R(h)` the *Network objects* named by `h.routed`,
so that the routed-network branch uses real CIDR containment. -/
def forwarded_spec (src dst : Option Endpoint) (h : Host) (routed : List Network) : Bool :=
  match src with
  | none => true
  | some s =>
    if epIp s == h.ip_addr then false
    else if h.mynetwork.containsEp s then
      !(match dst with | none => true | some d => h.mynetwork.containsEp d)
    else
      routed.any (fun r =>
        r.containsEp s && !(match dst with | none => true | some d => r.containsEp d))

/-- A row of the rules table (flcore.py `Rules.__init__`): all fields keep
their on-disk textual encoding. -/
structure Rule where
  enabled : String
  name : String
  src : String
  src_serv : String
  dst : String
  dst_serv : String
  action : String
  log_level : String
  desc : String
deriving DecidableEq

/-- A row of the services table (flcore.py `Services.__init__`). -/
structure Service where
  name : String
  proto : String
  ports : String
deriving DecidableEq

/-- An immutable model snapshot: the five tables a `FireSet` holds, plus the
repository dirtiness bit that `save_needed()` reports. -/
structure FireSet' where
  rules : List Rule
  hosts : List Host
  hostgroups : List (String × List String)
  services : List Service
  networks : List Network
  saveNeeded : Bool
deriving DecidableEq

/-- Embeds `protocols` (flcore.py line 60). -/
def protocols : List String := ["IP", "TCP", "UDP", "OSPF", "IS-IS", "SCTP", "AH", "ESP"]

/-- Embeds `HostGroup._flatten` (flcore.py line 168) on a name, with the group
dict `hbn`.  The source recursion has no cycle detection; the fuel models
the interpreter's recursion-depth limit: exhausting it is the
`RuntimeError: maximum recursion depth exceeded` the interpreter raises,
and any acyclic hierarchy is flattened within depth `hbn.length + 1`. -/
def flattenF (hbn : List (String × List String)) : Nat → String → Except Err (List String)
  | 0, _ => .error .recursionLimit
  | fuel + 1, i =>
    match pyDict hbn i with
    | some childs => (childs.mapM (flattenF hbn fuel)).map List.flatten
    | none => .ok [i]

/-- The leaf resolution inside `HostGroup.flat` (flcore.py line 190): a leaf
name must be a host-interface key or a network name, otherwise the source
raises (`"%s is not in %s or %s"`). -/
def resLeaf (hbni : List (String × Host)) (nbn : List (String × Network))
    (o : String) : Except Err Endpoint :=
  match pyDict hbni o with
  | some h => .ok (.host h)
  | none =>
    match pyDict nbn o with
    | some nw => .ok (.net nw)
    | none => .error (.alert ("unresolved name " ++ o))

/-- Embeds `HostGroup.flat` (flcore.py line 185): flatten the group's own children
through the group dict, then resolve every leaf. -/
def hgFlat (hbni : List (String × Host)) (nbn : List (String × Network))
    (hbn : List (String × List String)) (fuel : Nat) (childs : List String) :
    Except Err (List Endpoint) := do
  let leaves ← (childs.mapM (flattenF hbn fuel)).map List.flatten
  leaves.mapM (resLeaf hbni nbn)

/-- host-interface dict `host_by_name_col_iface` (flcore.py line 637). -/
def hbniD (fs : FireSet') : List (String × Host) :=
  fs.hosts.map (fun h => (h.hostname ++ ":" ++ h.iface, h))

/-- network dict `net_by_name` (flcore.py line 639). -/
def nbnD (fs : FireSet') : List (String × Network) :=
  fs.networks.map (fun n => (n.name, n))

/-- Embeds `net` dict (flcore.py line 630): network name to raw
`(ip_addr, masklen)` pair. -/
def netDict (fs : FireSet') : List (String × (Nat × Nat)) :=
  fs.networks.map (fun n => (n.name, (n.ip_addr, n.masklen)))

/-- Embeds `hg_by_name` (flcore.py line 641). -/
def hgbnD (fs : FireSet') : List (String × List String) := fs.hostgroups

/-- Embeds `proto_port` (flcore.py line 634): service name to `(protocol, ports)`,
with the wildcard entry `('*', (None, ''))` added afterwards. -/
def protoPortD (fs : FireSet') : List (String × (Option String × String)) :=
  fs.services.map (fun s => (s.name, (some s.proto, s.ports))) ++ [("*", (none, ""))]

/-- Embeds `flat_hg` (flcore.py line 645): every host group flattened up front,
whether or not a rule uses it. -/
def flatHgD (fs : FireSet') : Except Err (List (String × List Endpoint)) :=
  fs.hostgroups.mapM (fun g =>
    (hgFlat (hbniD fs) (nbnD fs) (hgbnD fs) (fs.hostgroups.length + 2) g.2).map
      (fun l => (g.1, l)))

/-- Embeds `res` (flcore.py line 647): resolve a rule endpoint name, consulting
host interfaces, then networks, then flattened host groups, then the
wildcard; an unknown name raises `Alert`. -/
def resName (hbni : List (String × Host)) (nbn : List (String × Network))
    (fhg : List (String × List Endpoint)) (n : String) :
    Except Err (List (Option Endpoint)) :=
  match pyDict hbni n with
  | some h => .ok [some (.host h)]
  | none =>
    match pyDict nbn n with
    | some nw => .ok [some (.net nw)]
    | none =>
      match pyDict fhg n with
      | some l => .ok (l.map some)
      | none => if n = "*" then .ok [none] else .error (.alert ("item not defined " ++ n))

/-- One element of the `compiled` list (flcore.py line 705):
`(proto, src, sports, dst, dports, log_val, name, action)`. -/
structure CTuple where
  proto : String
  src : Option Endpoint
  sports : String
  dst : Option Endpoint
  dports : String
  log_val : Int
  name : String
  action : String
deriving DecidableEq

/-- The `--sport`/`--dport` fragment (flcore.py lines 687-692): empty ports
stay empty, otherwise a ` -m multiport` prefix is added when the port list
contains a comma. -/
def portFrag (flag : String) (ports : String) : String :=
  if ports = "" then ""
  else (if ports.data.contains ',' then " -m multiport" else "") ++ " --" ++ flag ++ " " ++ ports

/-- The per-rule expansion inside `compile_rules` (flcore.py lines 664-705):
validation, service resolution, endpoint resolution, and the cartesian
product of sources and destinations. -/
def ruleTuples (hbni : List (String × Host)) (nbn : List (String × Network))
    (fhg : List (String × List Endpoint)) (ppd : List (String × (Option String × String)))
    (r : Rule) : Except Err (List CTuple) :=
  if r.enabled = "0" then .ok []
  else do
    let _ ← if r.action = "ACCEPT" ∨ r.action = "DROP" then pure ()
            else Except.error (Err.assertFail "action must be ACCEPT or DROP")
    let srcs ← resName hbni nbn fhg r.src
    let dsts ← resName hbni nbn fhg r.dst
    let sp ← match pyDict ppd r.src_serv with
             | some v => pure v
             | none => Except.error (Err.keyError r.src_serv)
    let dp ← match pyDict ppd r.dst_serv with
             | some v => pure v
             | none => Except.error (Err.keyError r.dst_serv)
    let _ ← match sp.1 with
            | none => pure ()
            | some p => if p ∈ protocols then pure ()
                        else Except.error (Err.assertFail "unknown source protocol")
    let _ ← match dp.1 with
            | none => pure ()
            | some p => if p ∈ protocols then pure ()
                        else Except.error (Err.assertFail "unknown dest protocol")
    let _ ← match sp.1, dp.1 with
            | some a, some b =>
              if a ≠ b then Except.error (Err.alert "protocol mismatch") else pure ()
            | _, _ => pure ()
    let proto := match dp.1, sp.1 with
                 | some d, _ => " -p " ++ strLower d
                 | none, some s => " -p " ++ strLower s
                 | none, none => ""
    let sports := portFrag "sport" sp.2
    let dports := portFrag "dport" dp.2
    let _ ← if r.name.data.all validc then pure ()
            else Except.error (Err.assertFail "invalid character in rule name")
    let logv ← match pyInt r.log_level with
               | some v => pure v
               | none => Except.error (Err.alert "log level must be an integer")
    pure ((srcs.map (fun s => dsts.map (fun d =>
      CTuple.mk proto s sports d dports logv r.name r.action))).flatten)

/-- The per-host chain lists of the compiled output. -/
structure Chains where
  input : List String
  output : List String
  forward : List String
deriving DecidableEq

/-- The compiled output `rd`: hostname to chains.  The source uses a Python
dict; an association list without duplicate keys represents it, and all
observations go through `rdLookup`. -/
abbrev RD : Type := List (String × Chains)

/-- Dict subscript on the compiled output. -/
def rdLookup : RD → String → Option Chains
  | [], _ => none
  | (k, c) :: rest, n => if k = n then some c else rdLookup rest n

/-- The stateful preamble line (flcore.py lines 720-723). -/
def stateLine : String := "-m state --state RELATED,ESTABLISHED -j ACCEPT"

/-- The first-rules block (flcore.py lines 718-725): INPUT and OUTPUT start
with the stateful accept line; FORWARD starts with it when
`network_fw == '1'` and with `-j DROP` otherwise. -/
def initChains (h : Host) : Chains :=
  { input := [stateLine], output := [stateLine],
    forward := if h.network_fw = "1" then [stateLine] else ["-j DROP"] }

/-- Embeds `if h.hostname not in rd: rd[h.hostname] = ...` (flcore.py line 718). -/
def rdInsert (rd : RD) (h : Host) : RD :=
  if (rdLookup rd h.hostname).isSome then rd else rd ++ [(h.hostname, initChains h)]

/-- Appending emitted lines to the three chain lists of one entry. -/
def extendC (c : Chains) (i o f : List String) : Chains :=
  { input := c.input ++ i, output := c.output ++ o, forward := c.forward ++ f }

/-- Appending emitted lines to the three chains of one hostname's entry. -/
def rdAppend (rd : RD) (n : String) (i o f : List String) : RD :=
  rd.map (fun p => if p.1 = n then (p.1, extendC p.2 i o f) else p)

/-- Embeds `" -s %s" % src.ipt()` when src is not the wildcard (flcore.py 714). -/
def srcFrag (t : CTuple) : String :=
  match t.src with
  | some s => " -s " ++ ipt s
  | none => ""

/-- Embeds `" -d %s" % dst.ipt()` when dst is not the wildcard (flcore.py 715). -/
def dstFrag (t : CTuple) : String :=
  match t.dst with
  | some d => " -d " ++ ipt d
  | none => ""

/-- The `%s%s%s%s%s` body shared by every emitted line:
proto, src, sports, dst, dports. -/
def lineBody (t : CTuple) : String :=
  t.proto ++ srcFrag t ++ t.sports ++ dstFrag t ++ t.dports

/-- The action line `"%s%s%s%s%s -j %s"` (flcore.py 736, 742, 757). -/
def actionLine (t : CTuple) : String := lineBody t ++ " -j " ++ t.action

/-- The LOG line without interface prefix (flcore.py 741, 756). -/
def logLine (t : CTuple) : String :=
  lineBody t ++ " -j LOG --log-level " ++ intStr t.log_val ++ " --log-prefix " ++ t.name

/-- The INPUT LOG line, which alone carries `-i <iface>` (flcore.py 735). -/
def inputLogLine (t : CTuple) (h : Host) : String := "-i " ++ h.iface ++ " " ++ logLine t

/-- The skip test (flcore.py line 729):
`if src and dst and src.ipt() == dst.ipt(): continue`. -/
def skipPair (t : CTuple) : Bool :=
  match t.src, t.dst with
  | some s, some d => ipt s == ipt d
  | _, _ => false

/-- The INPUT guard `if dst and h in dst or not dst` (flcore.py 733). -/
def inputCond (t : CTuple) (h : Host) : Bool :=
  match t.dst with
  | none => true
  | some d => epContainsHost d h

/-- The OUTPUT guard `if src and h in src or not src` (flcore.py 739). -/
def outputCond (t : CTuple) (h : Host) : Bool :=
  match t.src with
  | none => true
  | some s => epContainsHost s h

/-- Lines appended to INPUT for one `(compiled tuple, host)` step
(flcore.py 733-736): a LOG line only when `log_val` is truthy, then the
action line. -/
def inputLines (t : CTuple) (h : Host) : List String :=
  if inputCond t h then
    (if t.log_val ≠ 0 then [inputLogLine t h] else []) ++ [actionLine t]
  else []

/-- Lines appended to OUTPUT for one step (flcore.py 738-742). -/
def outputLines (t : CTuple) (h : Host) : List String :=
  if outputCond t h then
    (if t.log_val ≠ 0 then [logLine t] else []) ++ [actionLine t]
  else []

/-- Embeds `other_ifaces` (flcore.py 750): the host's other interface rows; passed
to `_oo_forwarded`, which never reads them. -/
def otherIfaces (hosts : List Host) (h : Host) : List Host :=
  hosts.filter (fun k => k.hostname == h.hostname && k.iface ≠ h.iface)

/-- Lines appended to FORWARD for one step (flcore.py 744-757): nothing for
a non-network-firewall host; otherwise every routed name is looked up in
the `net` dict (a missing name is a `KeyError` that aborts the compile),
the forwarding test runs, and on success a LOG line — emitted regardless
of `log_val` — precedes the action line. -/
def forwardLines (netD : List (String × (Nat × Nat))) (hosts : List Host)
    (t : CTuple) (h : Host) : Except Err (List String) :=
  if h.network_fw = "0" then .ok []
  else do
    let rr ← h.routed.mapM (fun r =>
      match pyDict netD r with
      | some v => pure v
      | none => Except.error (Err.keyError r))
    let forw := oo_forwarded t.src t.dst h rr (otherIfaces hosts h)
    pure (if forw then [logLine t, actionLine t] else [])

/-- The body of the splicing loop for one `(compiled tuple, host)` pair
(flcore.py 716-757): insert the first-rules block for an unseen hostname,
apply the skip test, then append the INPUT, OUTPUT and FORWARD lines. -/
def hostStep (netD : List (String × (Nat × Nat))) (hosts : List Host)
    (t : CTuple) (rd : RD) (h : Host) : Except Err RD :=
  let rd1 := rdInsert rd h
  if skipPair t then .ok rd1
  else do
    let f ← forwardLines netD hosts t h
    pure (rdAppend rd1 h.hostname (inputLines t h) (outputLines t h) f)

/-- Embeds `for h in self.hosts` (flcore.py 716), for one compiled tuple. -/
def spliceHosts (netD : List (String × (Nat × Nat))) (hostsAll : List Host)
    (t : CTuple) : List Host → RD → Except Err RD
  | [], rd => .ok rd
  | h :: rest, rd => do
    let rd' ← hostStep netD hostsAll t rd h
    spliceHosts netD hostsAll t rest rd'

/-- Embeds `for ... in compiled` (flcore.py 713): the outer splicing loop. -/
def spliceTuples (netD : List (String × (Nat × Nat))) (hosts : List Host) :
    List CTuple → RD → Except Err RD
  | [], rd => .ok rd
  | t :: rest, rd => do
    let rd' ← spliceHosts netD hosts t hosts rd
    spliceTuples netD hosts rest rd'

/-- Embeds `FireSet.compile_rules` (flcore.py line 617): the save-needed assert,
the global enabled-field check, dictionary building (including flattening
every host group), per-rule compilation, and the splicing loop starting
from an empty dict. -/
def compile_rules (fs : FireSet') : Except Err RD :=
  if fs.saveNeeded then .error .saveRequired
  else if !(fs.rules.all fun r => r.enabled == "1" || r.enabled == "0") then
    .error (.assertFail "first field must be 1 or 0")
  else
    flatHgD fs >>= fun fhg =>
    (fs.rules.mapM
      (ruleTuples (hbniD fs) (nbnD fs) fhg (protoPortD fs))).map List.flatten >>=
        fun compiled =>
    spliceTuples (netDict fs) fs.hosts compiled []

/-- Embeds `FireSet.compile` (flcore.py line 771) simply calls `compile_rules`. -/
def compile (fs : FireSet') : Except Err RD := compile_rules fs

/-- Embeds `FireSet.compile_dict` (flcore.py line 599).  After the save-needed
assert and the compile, the loop header
`for hostname, iface, ipa, ... in hosts` tuple-unpacks each `Host`
*object*; a `Host` is not iterable, so on the first row the interpreter
raises `TypeError` and no grouping is ever produced.  Only with an empty
host list does the loop body never run and the empty dict come back. -/
def compile_dict (fs : FireSet') :
    Except Err (List ((String × String) × List String)) :=
  if fs.saveNeeded then .error .saveRequired
  else do
    let _rset ← compile_rules fs
    match fs.hosts with
    | [] => .ok []
    | _ :: _ => .error .typeError

/-- Modelled from the spec (§4.4.2), for comparison with `compile_dict`:
group the compiled output by `(hostname, iface)`, keeping for each
interface exactly the lines of that host's chains that mention the
interface's own IP address. -/
def compile_dict_spec (fs : FireSet') :
    Except Err (List ((String × String) × List String)) := do
  let rset ← compile_rules fs
  pure (fs.hosts.map (fun h =>
    ((h.hostname, h.iface),
      match rdLookup rset h.hostname with
      | none => []
      | some c => (c.input ++ c.output ++ c.forward).filter
          (fun line => strIn (ipStr h.ip_addr) line))))

/-- The observable phases of `FireSet.deploy` (flcore.py 848-859) after the
save-needed guard. -/
inductive DeployStep where
  /-- Embeds `self.compile()` returned a ruleset. -/
  | producedRuleset : DeployStep
  /-- Embeds `self._get_confs(...)` opened connections to the hosts. -/
  | contactedHosts : DeployStep
deriving DecidableEq

/-- Embeds `FireSet._get_confs` (flcore.py 531): for a non-empty host list the loop
body reads the undefined variable `n` (`d[n] = []`), a `NameError`; the
remote interaction beyond that point is out of scope. -/
def get_confs (fs : FireSet') : Except Err Unit :=
  match fs.hosts with
  | [] => .ok ()
  | _ :: _ => .error (.nameError "n")

/-- Embeds `FireSet.deploy` (flcore.py 848): the first statement asserts that the
repository is clean (`SaveRequired` otherwise); only then are the rules
compiled and the hosts contacted.  The trace records which observable
phases were reached. -/
def deploy (fs : FireSet') : List DeployStep × Except Err Unit :=
  if fs.saveNeeded then ([], .error .saveRequired)
  else
    match compile_rules fs with
    | .error e => ([], .error e)
    | .ok _ =>
      match get_confs fs with
      | .error e => ([.producedRuleset], .error e)
      | .ok _ => ([.producedRuleset, .contactedHosts], .ok ())

/-- Resolution of a Python list index: a non-negative index in range is used
as is, a negative index counts from the end, anything else raises
`IndexError`. -/
def pyIdx (len : Nat) (i : Int) : Option Nat :=
  if 0 ≤ i ∧ i < (len : Int) then some i.toNat
  else if -(len : Int) ≤ i ∧ i < 0 then some (((len : Int) + i).toNat)
  else none

/-- Embeds `l[i]` with Python index semantics. -/
def pyGet {α : Type} (l : List α) (i : Int) : Option α :=
  (pyIdx l.length i).bind (fun n => l.get? n)

/-- Embeds `l[i] = a` with Python index semantics. -/
def pySet {α : Type} (l : List α) (i : Int) (a : α) : Option (List α) :=
  (pyIdx l.length i).map (fun n => l.set n a)

/-- Embeds `Rules.moveup` (flcore.py line 291):
`rules[rid], rules[rid-1] = rules[rid-1], rules[rid]` inside a
`try/except` that logs and swallows every exception, so the caller never
sees an error: on `IndexError` the list comes back unchanged, and for
`rid = 0` the negative index `-1` silently swaps the first row with the
*last* one. -/
def moveup {α : Type} (l : List α) (rid : Int) : List α :=
  match pyGet l (rid - 1), pyGet l rid with
  | some a, some b =>
    match pySet l rid a with
    | some l1 =>
      match pySet l1 (rid - 1) b with
      | some l2 => l2
      | none => l
    | none => l
  | _, _ => l

/-- Embeds `Rules.movedown` (flcore.py line 301): the symmetric swap with
`rid + 1`, again with every exception swallowed (`except ...: pass`). -/
def movedown {α : Type} (l : List α) (rid : Int) : List α :=
  match pyGet l (rid + 1), pyGet l rid with
  | some a, some b =>
    match pySet l rid a with
    | some l1 =>
      match pySet l1 (rid + 1) b with
      | some l2 => l2
      | none => l
    | none => l
  | _, _ => l

/-- The IPv4 netmask of a prefix length: the top `k` of 32 bits set. -/
def netmask (k : Nat) : Nat := 2 ^ 32 - 2 ^ (32 - k)

/-- The spec wording "masked by the prefix length": bitwise AND with
the netmask. -/
def maskedBy (a k : Nat) : Nat := a &&& netmask k

/-- Embeds `Network.__contains__` restricted to a `Host` argument (flcore.py 148). -/
def Network.containsHost (n : Network) (h : Host) : Bool :=
  net_addr h.ip_addr n.masklen == n.ip_addr

/-- Embeds `Network.__contains__` restricted to a `Network` argument
(flcore.py 151-154). -/
def Network.containsNet (n other : Network) : Bool :=
  (net_addr other.ip_addr n.masklen == n.ip_addr) && (other.masklen ≥ n.masklen)

deriving instance DecidableEq for Except

set_option maxRecDepth 10000

/-- The numeric value of the dotted quad `a.b.c.d`. -/
def ipv4 (a b c d : Nat) : Nat := a * 16777216 + b * 65536 + c * 256 + d

/-- A network firewall `fw eth0 1.2.3.1/24` that routes the network
named `lan2`. -/
def fw2H : Host := ⟨"fw", "eth0", ipv4 1 2 3 1, 24, "1", "1", "1", ["lan2"]⟩

/-- A plain host `web eth0 1.2.3.10/24`. -/
def web2H : Host := ⟨"web", "eth0", ipv4 1 2 3 10, 24, "1", "0", "1", []⟩

/-- The routed network `lan2 192.168.0.0/24`. -/
def lan2N : Network := Network.make "lan2" (ipv4 192 168 0 0) 24

/-- A snapshot with one rule `lan2 → web:eth0` whose only forwarding path on
`fw` is through the routed network `lan2`. -/
def fsC2 : FireSet' :=
  { rules := [⟨"1", "r2", "lan2", "*", "web:eth0", "*", "ACCEPT", "0", "d"⟩],
    hosts := [fw2H, web2H], hostgroups := [], services := [], networks := [lan2N],
    saveNeeded := false }

/-- A network firewall `fw eth0 1.2.3.1/24` with no routed networks. -/
def fwH : Host := ⟨"fw", "eth0", ipv4 1 2 3 1, 24, "1", "1", "1", []⟩

/-- A plain host `web eth0 1.2.3.10/24`. -/
def webH : Host := ⟨"web", "eth0", ipv4 1 2 3 10, 24, "1", "0", "1", []⟩

/-- The catch-all network `internet 0.0.0.0/0`. -/
def internetN : Network := Network.make "internet" (ipv4 0 0 0 0) 0

/-- A snapshot with a single enabled rule `web:eth0 → internet` with
`log_level = 0`, forwarded by `fw` through its directly-connected
network. -/
def fsC3 : FireSet' :=
  { rules := [⟨"1", "r1", "web:eth0", "*", "internet", "*", "ACCEPT", "0", "d"⟩],
    hosts := [fwH, webH], hostgroups := [], services := [], networks := [internetN],
    saveNeeded := false }

/-- A snapshot with one host row and one enabled rule `internet → web:eth0`,
so the main compiled output contains lines mentioning `1.2.3.10`. -/
def fsC4 : FireSet' :=
  { rules := [⟨"1", "r1", "internet", "*", "web:eth0", "*", "ACCEPT", "0", "d"⟩],
    hosts := [webH], hostgroups := [], services := [], networks := [internetN],
    saveNeeded := false }

/-- Two host groups that contain each other. -/
def cycHbn : List (String × List String) := [("g1", ["g2"]), ("g2", ["g1"])]

/-- A dirty snapshot with a host and an enabled rule. -/
def fsDirty : FireSet' :=
  { rules := [⟨"1", "r1", "*", "*", "*", "*", "ACCEPT", "0", "d"⟩],
    hosts := [webH], hostgroups := [], services := [], networks := [],
    saveNeeded := true }

/-- A snapshot with one host row and one rule that is disabled. -/
def fsC1 : FireSet' :=
  { rules := [⟨"0", "r1", "*", "*", "*", "*", "ACCEPT", "0", "d"⟩],
    hosts := [webH], hostgroups := [], services := [], networks := [],
    saveNeeded := false }

/-- The network `lan 10.0.0.0/24`. -/
def lanA : Network := Network.make "lan" (ipv4 10 0 0 0) 24

/-- The network `lanb 10.0.0.0/24`: a distinct Network object with the same
addressing as `lanA`. -/
def lanB : Network := Network.make "lanb" (ipv4 10 0 0 0) 24

/-- A host inside 10.0.0.0/24, so that without the skip the rule below
would put lines on its INPUT and OUTPUT chains. -/
def gwH : Host := ⟨"gw", "eth0", ipv4 10 0 0 1, 24, "1", "0", "1", []⟩

/-- A snapshot with the rule `lan → lanb` between two networks that render
to the same `addr/masklen` string. -/
def fsC6 : FireSet' :=
  { rules := [⟨"1", "r6", "lan", "*", "lanb", "*", "ACCEPT", "0", "d"⟩],
    hosts := [gwH], hostgroups := [], services := [], networks := [lanA, lanB],
    saveNeeded := false }

/-- The per-host preamble an entry for hostname `k` must carry at the head
of its chains, the FORWARD head being determined by the `network_fw` flag
of a model row bearing that hostname. -/
def headsOK (hostsFull : List Host) (k : String) (c : Chains) : Prop :=
  c.input.head? = some stateLine ∧ c.output.head? = some stateLine ∧
  ∃ h0, h0 ∈ hostsFull ∧ h0.hostname = k ∧
    c.forward.head? = some (if h0.network_fw = "1" then stateLine else "-j DROP")

/-- Invariant of the splicing loop: every entry present in the partial
output carries its preamble at the head of each chain. -/
def InvRD (hostsFull : List Host) (rd : RD) : Prop :=
  ∀ k c, rdLookup rd k = some c → headsOK hostsFull k c

/-- Number of copies of line `s` on the INPUT chain of hostname `k`. -/
def countIn (rd : RD) (k : String) (s : String) : Nat :=
  match rdLookup rd k with
  | some c => c.input.count s
  | none => 0

/-- Number of copies of line `s` on the OUTPUT chain of hostname `k`. -/
def countOut (rd : RD) (k : String) (s : String) : Nat :=
  match rdLookup rd k with
  | some c => c.output.count s
  | none => 0

/-- An enabled rule with wildcard source and destination, no services, and
log level 0. -/
def c10rule : Rule := ⟨"1", "r1", "*", "*", "*", "*", "ACCEPT", "0", "d"⟩

/-- The family of snapshots with arbitrary host rows and the single enabled
all-wildcard rule. -/
def fsC10 (hs : List Host) : FireSet' :=
  { rules := [c10rule], hosts := hs, hostgroups := [], services := [],
    networks := [], saveNeeded := false }

/-- The one compiled tuple of `c10rule`. -/
def t10 : CTuple := ⟨"", none, "", none, "", 0, "r1", "ACCEPT"⟩

/-- The action line `c10rule` emits: all fragments are empty. -/
def wildAct : String := " -j ACCEPT"

/-- First interface row of the two-interface host `fw`. -/
def fwA : Host := ⟨"fw", "eth0", ipv4 1 2 3 1, 24, "1", "0", "1", []⟩

/-- Second interface row of the two-interface host `fw`. -/
def fwB : Host := ⟨"fw", "eth1", ipv4 9 9 9 1, 24, "1", "0", "1", []⟩

/-- The compiled output of `fsC10 [fwH]`: one entry with the preamble heads
and the wildcard rule's lines (including the unconditionally emitted
FORWARD LOG line). -/
def rdC1W : RD :=
  [("fw", ⟨[stateLine, wildAct], [stateLine, wildAct],
           [stateLine, " -j LOG --log-level 0 --log-prefix r1", wildAct]⟩)]

/-- Claim C2: the routed-network branch of the forwarding predicate.  The
claim says a pair with `src ⊂ r` and `dst ⊄ r` for a routed network `r` is
emitted on FORWARD; in the code `compile_rules` passes `_oo_forwarded` raw
`(ip_addr, masklen)` pairs where its docstring asks for `Network`
instances, so the tuple-membership test `src in rnet` is always false and
the routed branch never fires: at this input the spec-side predicate holds,
the code's predicate is false, and the compiled FORWARD chain of `fw`
stays at its preamble. -/
theorem c2_routed_branch_dead :
    oo_forwarded (some (.net lan2N)) (some (.host web2H)) fw2H
        [(ipv4 192 168 0 0, 24)] (otherIfaces [fw2H, web2H] fw2H) = false ∧
    forwarded_spec (some (.net lan2N)) (some (.host web2H)) fw2H [lan2N] = true ∧
    epIp (.net lan2N) ≠ fw2H.ip_addr ∧
    fw2H.mynetwork.containsEp (.net lan2N) = false ∧
    lan2N.containsEp (.net lan2N) = true ∧
    lan2N.containsEp (.host web2H) = false ∧
    compile_rules fsC2 = Except.ok
      [("fw", ⟨[stateLine], [stateLine], [stateLine]⟩),
       ("web", ⟨[stateLine, " -s 192.168.0.0/24 -d 1.2.3.10 -j ACCEPT"],
                [stateLine], ["-j DROP"]⟩)] := by
  decide

/-- Claim C3: with `log_level = 0` the FORWARD chain should receive only the
action line.  The INPUT and OUTPUT emitters guard their LOG line with
`if log_val:`, but the FORWARD emitter (flcore.py 755-757) appends its LOG
line unconditionally: on this snapshot `fw`'s FORWARD chain receives
`... -j LOG --log-level 0 --log-prefix r1` immediately before the action
line even though the rule's log level is 0. -/
theorem c3_forward_log_unconditional :
    compile_rules fsC3 = Except.ok
      [("fw", ⟨[stateLine, " -s 1.2.3.10 -d 0.0.0.0/0 -j ACCEPT"],
               [stateLine],
               [stateLine, " -s 1.2.3.10 -d 0.0.0.0/0 -j LOG --log-level 0 --log-prefix r1",
                " -s 1.2.3.10 -d 0.0.0.0/0 -j ACCEPT"]⟩),
       ("web", ⟨[stateLine, " -s 1.2.3.10 -d 0.0.0.0/0 -j ACCEPT"],
                [stateLine, " -s 1.2.3.10 -d 0.0.0.0/0 -j ACCEPT"],
                ["-j DROP"]⟩)] := by
  decide

/-- Claim C4: `compile_dict` should group the compiled lines by
`(hostname, iface)` keeping those that mention the interface's IP.  The
code's loop header tuple-unpacks each `Host` object, which is not
iterable: on any snapshot with a host row it raises `TypeError` and
returns nothing, while the spec-side grouping yields the expected
per-interface list. -/
theorem c4_compile_dict_type_error :
    compile_dict fsC4 = Except.error Err.typeError ∧
    compile_dict_spec fsC4 = Except.ok
      [(("web", "eth0"), [" -s 0.0.0.0/0 -d 1.2.3.10 -j ACCEPT",
                          " -s 0.0.0.0/0 -d 1.2.3.10 -j ACCEPT"])] := by
  decide

/-- Claim C7: cycles among groups should be detected and reported as
`BadData`, and unresolved terminal names should fail.  The source
flattener has no cycle detection: on the cyclic two-group graph it
recurses until the interpreter's recursion limit whatever that limit is
(every recursion budget ends in `recursionLimit`, never in a `BadData`
report), while an acyclic graph with an unresolvable leaf does fail with
the unresolved-name error. -/
theorem c7_flatten_cycle_no_detection :
    (∀ fuel : Nat,
      flattenF cycHbn fuel "g1" = Except.error Err.recursionLimit ∧
      flattenF cycHbn fuel "g2" = Except.error Err.recursionLimit) ∧
    hgFlat [] [] [("g", ["x"])] 3 ["g"] = Except.error (.alert ("unresolved name " ++ "x")) := by
  constructor
  · intro fuel
    induction fuel with
    | zero => exact ⟨rfl, rfl⟩
    | succ n ih =>
      constructor
      · show (List.mapM (flattenF cycHbn n) ["g2"]).map List.flatten = _
        rw [show List.mapM (flattenF cycHbn n) ["g2"] =
              (flattenF cycHbn n "g2").bind (fun x => Except.ok [x]) from rfl, ih.2]
        rfl
      · show (List.mapM (flattenF cycHbn n) ["g1"]).map List.flatten = _
        rw [show List.mapM (flattenF cycHbn n) ["g1"] =
              (flattenF cycHbn n "g1").bind (fun x => Except.ok [x]) from rfl, ih.1]
        rfl
  · decide

/-- Claim C8: `deploy()` on a dirty model raises `SaveRequired` as its very
first step: no ruleset is compiled and no host is contacted (the phase
trace is empty), and, the embedding being a pure function of the
snapshot, the model is left unchanged. -/
theorem c8_deploy_save_gate (fs : FireSet') (h : fs.saveNeeded = true) :
    deploy fs = ([], Except.error Err.saveRequired) := by
  simp [deploy, h]

/-- Witness for C8 at a concrete dirty snapshot. -/
theorem c8_deploy_save_gate_witness :
    deploy fsDirty = ([], Except.error Err.saveRequired) :=
  c8_deploy_save_gate fsDirty rfl

/-- Claim C9: `moveup`/`movedown` at an invalid index should raise
`OutOfRange` and leave the list unchanged.  In the code both are wrapped
in `try/except` blocks that swallow every exception (the return type has
no error channel at all), and `moveup 0` does not even leave the list
unchanged: Python's negative indexing makes `rules[rid - 1]` the *last*
row, so the first and last rules are swapped and saved. -/
theorem c9_moveup_negative_index :
    moveup (["r1", "r2", "r3"] : List String) 0 = ["r3", "r2", "r1"] ∧
    movedown (["r1", "r2", "r3"] : List String) 2 = ["r1", "r2", "r3"] ∧
    moveup (["r1", "r2", "r3"] : List String) 5 = ["r1", "r2", "r3"] ∧
    movedown (["r1", "r2", "r3"] : List String) (-4) = ["r1", "r2", "r3"] := by
  decide

/-- Counterexample to claim C1: the per-host preamble is only written from
inside the splicing loop over compiled `(src, dst)` pairs, so on a
snapshot whose only rule is disabled the compiled output is the empty
mapping — the host `web` present in the model gets no entry at all,
contradicting "contains an entry for every host ... even when no rule is
enabled". -/
theorem c1_no_rules_no_entries :
    compile_rules fsC1 = Except.ok [] ∧
    fsC1.hosts = [webH] ∧ rdLookup [] "web" = none := by
  decide

/-- Counterexample to claim C6: the skip test compares `src.ipt()` with
`dst.ipt()`, not host addresses, so a pair of *networks* with identical
address and prefix is also skipped — here two distinct network objects
make `skipPair` true, and the compiled output for a host inside them
stays at the bare preamble although without the skip the rule would have
reached its INPUT and OUTPUT chains. -/
theorem c6_network_pair_skipped :
    skipPair ⟨"", some (.net lanA), "", some (.net lanB), "", 0, "r6", "ACCEPT"⟩ = true ∧
    lanA ≠ lanB ∧
    inputCond ⟨"", some (.net lanA), "", some (.net lanB), "", 0, "r6", "ACCEPT"⟩ gwH = true ∧
    compile_rules fsC6 = Except.ok
      [("gw", ⟨[stateLine], [stateLine], ["-j DROP"]⟩)] := by
  decide

/-- Inversion for a successful `Except` bind. -/
theorem except_bind_ok {ε α β : Type} (A : Except ε α) (f : α → Except ε β) (b : β)
    (h : (A >>= f) = .ok b) : ∃ a, A = .ok a ∧ f a = .ok b := by
  cases A with
  | error e => simp [Bind.bind, Except.bind] at h
  | ok a => exact ⟨a, rfl, by simpa [Bind.bind, Except.bind] using h⟩

/-- Inversion for a successful `Except` map. -/
theorem except_map_ok {ε α β : Type} (A : Except ε α) (f : α → β) (b : β)
    (h : A.map f = .ok b) : ∃ a, A = .ok a ∧ f a = b := by
  cases A with
  | error e => simp [Except.map] at h
  | ok a => exact ⟨a, rfl, by simpa [Except.map] using h⟩

/-- Looking a key up after appending a single binding at the end. -/
theorem rdLookup_append_single (rd : RD) (n : String) (c : Chains) (k : String) :
    rdLookup (rd ++ [(n, c)]) k =
      match rdLookup rd k with
      | some x => some x
      | none => if n = k then some c else none := by
  induction rd with
  | nil => simp [rdLookup]
  | cons p rest ih =>
    by_cases hp : p.1 = k
    · simp [rdLookup, hp]
    · simp [rdLookup, hp, ih]

/-- Effect of `rdInsert` on lookups: the inserted hostname maps to its old
entry if present and to the first-rules block otherwise; other keys are
untouched. -/
theorem rdLookup_rdInsert (rd : RD) (h : Host) (k : String) :
    rdLookup (rdInsert rd h) k =
      if k = h.hostname then some ((rdLookup rd k).getD (initChains h))
      else rdLookup rd k := by
  unfold rdInsert
  by_cases hp : (rdLookup rd h.hostname).isSome
  · rw [if_pos hp]
    by_cases hk : k = h.hostname
    · subst hk
      obtain ⟨c, hc⟩ := Option.isSome_iff_exists.mp hp
      simp [hc]
    · simp [hk]
  · rw [if_neg hp]
    rw [rdLookup_append_single]
    have hn : rdLookup rd h.hostname = none := Option.not_isSome_iff_eq_none.mp hp
    by_cases hk : k = h.hostname
    · subst hk
      simp [hn]
    · cases hrd : rdLookup rd k with
      | some x => simp [hrd, hk]
      | none => simp [hrd, hk, Ne.symm hk]

/-- Unfolding `rdLookup` on a cons cell. -/
theorem rdLookup_cons (k0 : String) (c0 : Chains) (rest : RD) (k : String) :
    rdLookup ((k0, c0) :: rest) k = if k0 = k then some c0 else rdLookup rest k := rfl

/-- Effect of `rdAppend` on lookups: only the named hostname's entry is
extended. -/
theorem rdLookup_rdAppend (rd : RD) (n : String) (i o f : List String) (k : String) :
    rdLookup (rdAppend rd n i o f) k =
      if k = n then (rdLookup rd k).map (fun c => extendC c i o f)
      else rdLookup rd k := by
  induction rd with
  | nil => by_cases hk : k = n <;> simp [rdAppend, rdLookup, hk]
  | cons p rest ih =>
    obtain ⟨k0, c0⟩ := p
    have hstep : rdAppend ((k0, c0) :: rest) n i o f =
        (if k0 = n then (k0, extendC c0 i o f) else (k0, c0)) :: rdAppend rest n i o f := rfl
    rw [hstep]
    by_cases h1 : k0 = n
    · rw [if_pos h1, rdLookup_cons, rdLookup_cons]
      by_cases h2 : k0 = k
      · rw [if_pos h2, if_pos h2, if_pos (h2.symm.trans h1)]
        rfl
      · rw [if_neg h2, if_neg h2, ih]
    · rw [if_neg h1, rdLookup_cons, rdLookup_cons]
      by_cases h2 : k0 = k
      · rw [if_pos h2, if_pos h2, if_neg (fun hh => h1 (h2.trans hh))]
      · rw [if_neg h2, if_neg h2, ih]

/-- One `hostStep` inserts (at most) the stepped host's preamble entry and
extends only that hostname's chains, by some triple of line lists. -/
theorem hostStep_ok_lookup (netD : List (String × (Nat × Nat))) (hostsAll : List Host)
    (t : CTuple) (rd : RD) (h : Host) (rd' : RD)
    (hok : hostStep netD hostsAll t rd h = .ok rd') :
    ∃ i o f : List String, ∀ k, rdLookup rd' k =
      if k = h.hostname then some (extendC ((rdLookup rd k).getD (initChains h)) i o f)
      else rdLookup rd k := by
  unfold hostStep at hok
  by_cases hs : skipPair t
  · rw [if_pos hs] at hok
    injection hok with hok
    refine ⟨[], [], [], fun k => ?_⟩
    rw [← hok, rdLookup_rdInsert]
    by_cases hk : k = h.hostname
    · simp [hk, extendC]
    · simp [hk]
  · rw [if_neg hs] at hok
    obtain ⟨f, hf, hok⟩ := except_bind_ok _ _ _ hok
    injection hok with hok
    refine ⟨inputLines t h, outputLines t h, f, fun k => ?_⟩
    rw [← hok, rdLookup_rdAppend, rdLookup_rdInsert]
    by_cases hk : k = h.hostname
    · simp [hk]
    · simp [hk]

/-- Extending a chain that already carries its preamble head keeps it. -/
theorem headsOK_extendC (full : List Host) (k : String) (c : Chains)
    (hc : headsOK full k c) (i o f : List String) :
    headsOK full k (extendC c i o f) := by
  obtain ⟨h1, h2, h0, hm, hn, h3⟩ := hc
  refine ⟨?_, ?_, h0, hm, hn, ?_⟩ <;>
    simp [extendC, List.head?_append, h1, h2, h3, Option.or]

/-- The first-rules block satisfies the preamble property for its host. -/
theorem headsOK_initChains (full : List Host) (h : Host) (hm : h ∈ full) :
    headsOK full h.hostname (initChains h) := by
  refine ⟨rfl, rfl, h, hm, rfl, ?_⟩
  by_cases hw : h.network_fw = "1" <;> simp [initChains, hw]

/-- One `hostStep` preserves the preamble invariant, makes the stepped
hostname's entry present, and never removes entries. -/
theorem hostStep_inv (full : List Host) (netD : List (String × (Nat × Nat)))
    (hostsAll : List Host) (t : CTuple) (rd : RD) (h : Host) (rd' : RD)
    (hm : h ∈ full) (hok : hostStep netD hostsAll t rd h = .ok rd')
    (hinv : InvRD full rd) :
    InvRD full rd' ∧ (rdLookup rd' h.hostname).isSome = true ∧
      (∀ k, (rdLookup rd k).isSome = true → (rdLookup rd' k).isSome = true) := by
  obtain ⟨i, o, f, hch⟩ := hostStep_ok_lookup netD hostsAll t rd h rd' hok
  refine ⟨?_, ?_, ?_⟩
  · intro k c hc
    rw [hch k] at hc
    by_cases hk : k = h.hostname
    · rw [if_pos hk] at hc
      injection hc with hc
      subst hc
      cases hb : rdLookup rd k with
      | some c0 =>
        exact headsOK_extendC full k c0 (hinv k c0 hb) i o f
      | none =>
        subst hk
        exact headsOK_extendC full h.hostname (initChains h)
          (headsOK_initChains full h hm) i o f
    · rw [if_neg hk] at hc
      exact hinv k c hc
  · rw [hch h.hostname, if_pos rfl]
    rfl
  · intro k hk'
    rw [hch k]
    by_cases hk : k = h.hostname
    · rw [if_pos hk]; rfl
    · rw [if_neg hk]; exact hk'

/-- One pass of the inner host loop: the invariant is preserved, no entry
disappears, and every processed host's hostname has an entry afterwards. -/
theorem spliceHosts_inv (netD : List (String × (Nat × Nat))) (hostsAll full : List Host)
    (t : CTuple) :
    ∀ (l : List Host) (rd rd' : RD), spliceHosts netD hostsAll t l rd = .ok rd' →
      (∀ h ∈ l, h ∈ full) → InvRD full rd →
      InvRD full rd' ∧ (∀ k, (rdLookup rd k).isSome = true → (rdLookup rd' k).isSome = true) ∧
        (∀ h ∈ l, (rdLookup rd' h.hostname).isSome = true) := by
  intro l
  induction l with
  | nil =>
    intro rd rd' hok _ hinv
    injection hok with hok
    subst hok
    exact ⟨hinv, fun k hk => hk, fun h hm => absurd hm (List.not_mem_nil h)⟩
  | cons h rest ih =>
    intro rd rd' hok hsub hinv
    obtain ⟨rd1, h1, h2⟩ := except_bind_ok _ _ _ hok
    obtain ⟨hinv1, hsome1, hmono1⟩ :=
      hostStep_inv full netD hostsAll t rd h rd1 (hsub h (List.mem_cons_self h rest)) h1 hinv
    obtain ⟨hinv2, hmono2, hcov2⟩ :=
      ih rd1 rd' h2 (fun x hx => hsub x (List.mem_cons_of_mem h hx)) hinv1
    refine ⟨hinv2, fun k hk => hmono2 k (hmono1 k hk), ?_⟩
    intro x hx
    rcases List.mem_cons.mp hx with hx | hx
    · subst hx
      exact hmono2 x.hostname hsome1
    · exact hcov2 x hx

/-- The outer splicing loop preserves the invariant and never removes
entries. -/
theorem spliceTuples_inv (netD : List (String × (Nat × Nat))) (hosts : List Host) :
    ∀ (ts : List CTuple) (rd rd' : RD), spliceTuples netD hosts ts rd = .ok rd' →
      InvRD hosts rd →
      InvRD hosts rd' ∧
        (∀ k, (rdLookup rd k).isSome = true → (rdLookup rd' k).isSome = true) := by
  intro ts
  induction ts with
  | nil =>
    intro rd rd' hok hinv
    injection hok with hok
    subst hok
    exact ⟨hinv, fun k hk => hk⟩
  | cons t rest ih =>
    intro rd rd' hok hinv
    obtain ⟨rd1, h1, h2⟩ := except_bind_ok _ _ _ hok
    obtain ⟨hinv1, hmono1, _⟩ :=
      spliceHosts_inv netD hosts hosts t hosts rd rd1 h1 (fun x hx => hx) hinv
    obtain ⟨hinv2, hmono2⟩ := ih rd1 rd' h2 hinv1
    exact ⟨hinv2, fun k hk => hmono2 k (hmono1 k hk)⟩

/-- Claim C1 (amended): whenever compilation succeeds and at least one
enabled rule contributes a compiled `(src, dst)` pair (equivalently, the
output mapping is non-empty), every host row's hostname has an entry
whose INPUT[0] and OUTPUT[0] equal the stateful accept line and whose
FORWARD[0] is the stateful accept line or `-j DROP` according to the
`network_fw` flag of a model row bearing that hostname; with no compiled
pair the mapping is empty and no host gets an entry
(`c1_no_rules_no_entries`). -/
theorem c1_preamble_present (fs : FireSet') (rd : RD)
    (hok : compile_rules fs = .ok rd) (hne : rd ≠ []) :
    ∀ h ∈ fs.hosts, ∃ c, rdLookup rd h.hostname = some c ∧
      c.input.head? = some stateLine ∧ c.output.head? = some stateLine ∧
      ∃ h0, h0 ∈ fs.hosts ∧ h0.hostname = h.hostname ∧
        c.forward.head? = some (if h0.network_fw = "1" then stateLine else "-j DROP") := by
  unfold compile_rules at hok
  by_cases hsv : fs.saveNeeded = true
  · rw [if_pos hsv] at hok
    exact absurd hok (by simp)
  · rw [if_neg hsv] at hok
    by_cases hen : (!(fs.rules.all fun r => r.enabled == "1" || r.enabled == "0")) = true
    · rw [if_pos hen] at hok
      exact absurd hok (by simp)
    · rw [if_neg hen] at hok
      obtain ⟨fhg, _, hok⟩ := except_bind_ok _ _ _ hok
      obtain ⟨compiled, _, hok⟩ := except_bind_ok _ _ _ hok
      cases compiled with
        | nil =>
          rw [show spliceTuples (netDict fs) fs.hosts [] [] = Except.ok [] from rfl] at hok
          injection hok with hok
          exact absurd hok.symm hne
        | cons t ts =>
          rw [show spliceTuples (netDict fs) fs.hosts (t :: ts) [] =
                (spliceHosts (netDict fs) fs.hosts t fs.hosts [] >>= fun rd1 =>
                  spliceTuples (netDict fs) fs.hosts ts rd1) from rfl] at hok
          obtain ⟨rd1, hS, hT⟩ := except_bind_ok _ _ _ hok
          have hinv0 : InvRD fs.hosts ([] : RD) := fun k c hc => by cases hc
          obtain ⟨hinv1, _, hcov1⟩ :=
            spliceHosts_inv (netDict fs) fs.hosts fs.hosts t fs.hosts [] rd1 hS
              (fun x hx => hx) hinv0
          obtain ⟨hinv2, hmono2⟩ := spliceTuples_inv (netDict fs) fs.hosts ts rd1 rd hT hinv1
          intro h hm
          have hsome : (rdLookup rd h.hostname).isSome = true :=
            hmono2 h.hostname (hcov1 h hm)
          obtain ⟨c, hc⟩ := Option.isSome_iff_exists.mp hsome
          obtain ⟨h1, h2, h0, hm0, hn0, h3⟩ := hinv2 h.hostname c hc
          exact ⟨c, hc, h1, h2, h0, hm0, hn0, h3⟩

/-- Witness for the amended claim C1 at a concrete snapshot with one host
and one enabled wildcard rule. -/
theorem c1_preamble_present_witness :
    ∃ c, rdLookup rdC1W fwH.hostname = some c ∧
      c.input.head? = some stateLine ∧ c.output.head? = some stateLine ∧
      ∃ h0, h0 ∈ (fsC10 [fwH]).hosts ∧ h0.hostname = fwH.hostname ∧
        c.forward.head? = some (if h0.network_fw = "1" then stateLine else "-j DROP") :=
  c1_preamble_present (fsC10 [fwH]) rdC1W (by decide) (by decide) fwH (by decide)

/-- A dict none of whose keys is the query resolves to `none`. -/
theorem pyDict_none {α : Type} (l : List (String × α)) (n : String)
    (h : ∀ p ∈ l, p.1 ≠ n) : pyDict l n = none := by
  induction l with
  | nil => rfl
  | cons p rest ih =>
    obtain ⟨k0, v0⟩ := p
    have hrest : pyDict rest n = none := ih (fun q hq => h q (List.mem_cons_of_mem _ hq))
    show (match pyDict rest n with
          | some r => some r
          | none => if k0 = n then some v0 else none) = none
    rw [hrest]
    exact if_neg (h (k0, v0) (List.mem_cons_self _ _))

/-- A host-interface key always contains a colon, so it is never `"*"`. -/
theorem colon_key_ne_star (a b : String) : a ++ ":" ++ b ≠ "*" := by
  intro h
  have hmem : ':' ∈ (a ++ ":" ++ b).data := by
    rw [String.data_append, String.data_append]
    exact List.mem_append.mpr (Or.inl (List.mem_append.mpr (Or.inr (by decide))))
  rw [h] at hmem
  exact absurd hmem (by decide)

/-- The wildcard name misses the host-interface dict of any host list. -/
theorem pyDict_hbniD_star (hs : List Host) : pyDict (hbniD (fsC10 hs)) "*" = none := by
  apply pyDict_none
  intro p hp
  obtain ⟨h, _, rfl⟩ := List.mem_map.mp hp
  exact colon_key_ne_star h.hostname h.iface

/-- The wildcard rule compiles, for any host list, to the single all-empty
tuple `t10`. -/
theorem ruleTuples_c10 (hs : List Host) :
    ruleTuples (hbniD (fsC10 hs)) (nbnD (fsC10 hs)) [] (protoPortD (fsC10 hs)) c10rule =
      .ok [t10] := by
  have hres : resName (hbniD (fsC10 hs)) (nbnD (fsC10 hs)) [] "*" = .ok [none] := by
    unfold resName
    rw [pyDict_hbniD_star hs]
    rfl
  have hpp : pyDict (protoPortD (fsC10 hs)) "*" = some ((none : Option String), "") := rfl
  simp only [ruleTuples, hres, hpp, c10rule, Bind.bind, Except.bind, pure, Except.pure,
    t10, String.reduceEq, Bool.false_eq_true, if_false, reduceIte]
  decide

/-- One host step of the wildcard tuple appends exactly one copy of the
action line to the stepped hostname's INPUT and OUTPUT chains and leaves
other hostnames' counts unchanged. -/
theorem hostStep_count_t10 (netD : List (String × (Nat × Nat))) (hostsAll : List Host)
    (rd : RD) (h : Host) (rd' : RD)
    (hok : hostStep netD hostsAll t10 rd h = .ok rd') (k : String) :
    countIn rd' k wildAct = countIn rd k wildAct + (if h.hostname = k then 1 else 0) ∧
    countOut rd' k wildAct = countOut rd k wildAct + (if h.hostname = k then 1 else 0) := by
  unfold hostStep at hok
  rw [if_neg (show ¬ skipPair t10 = true by decide)] at hok
  obtain ⟨f, _, hok⟩ := except_bind_ok _ _ _ hok
  injection hok with hok
  subst hok
  have hi : inputLines t10 h = [wildAct] := rfl
  have ho : outputLines t10 h = [wildAct] := rfl
  have hzI : (initChains h).input.count wildAct = 0 := by
    show ([stateLine] : List String).count wildAct = 0
    decide
  have hzO : (initChains h).output.count wildAct = 0 := by
    show ([stateLine] : List String).count wildAct = 0
    decide
  constructor
  · unfold countIn
    rw [rdLookup_rdAppend, rdLookup_rdInsert]
    by_cases hk : k = h.hostname
    · rw [if_pos hk, if_pos hk, if_pos hk.symm]
      cases hb : rdLookup rd k with
      | some c0 => simp [extendC, hi, List.count_append]
      | none => simp [extendC, hi, List.count_append, hzI]
    · rw [if_neg hk, if_neg hk, if_neg (fun hh => hk hh.symm)]
      cases hb : rdLookup rd k with
      | some c0 => simp
      | none => simp
  · unfold countOut
    rw [rdLookup_rdAppend, rdLookup_rdInsert]
    by_cases hk : k = h.hostname
    · rw [if_pos hk, if_pos hk, if_pos hk.symm]
      cases hb : rdLookup rd k with
      | some c0 => simp [extendC, ho, List.count_append]
      | none => simp [extendC, ho, List.count_append, hzO]
    · rw [if_neg hk, if_neg hk, if_neg (fun hh => hk hh.symm)]
      cases hb : rdLookup rd k with
      | some c0 => simp
      | none => simp

/-- One pass of the host loop with the wildcard tuple adds, per hostname,
as many copies of the action line to INPUT and OUTPUT as the pass visits
rows with that hostname. -/
theorem spliceHosts_count_t10 (netD : List (String × (Nat × Nat))) (hostsAll : List Host) :
    ∀ (l : List Host) (rd rd' : RD), spliceHosts netD hostsAll t10 l rd = .ok rd' →
      ∀ k, countIn rd' k wildAct =
            countIn rd k wildAct + (l.filter (fun h => h.hostname == k)).length ∧
          countOut rd' k wildAct =
            countOut rd k wildAct + (l.filter (fun h => h.hostname == k)).length := by
  intro l
  induction l with
  | nil =>
    intro rd rd' hok k
    injection hok with hok
    subst hok
    simp
  | cons h rest ih =>
    intro rd rd' hok k
    obtain ⟨rd1, h1, h2⟩ := except_bind_ok _ _ _ hok
    obtain ⟨hc1, hc2⟩ := hostStep_count_t10 netD hostsAll rd h rd1 h1 k
    obtain ⟨hr1, hr2⟩ := (ih rd1 rd' h2) k
    rw [hr1, hr2, hc1, hc2]
    by_cases hk : h.hostname = k
    · simp [List.filter_cons, hk]
      omega
    · simp [List.filter_cons, hk]

/-- Claim C10: on any snapshot whose single enabled rule has wildcard
source and destination, every compiled entry's INPUT chain holds exactly
one copy of the rule's action line per model row bearing that hostname —
a hostname with `n` interface rows gets `n` identical copies — and
likewise for OUTPUT. -/
theorem c10_wildcard_row_duplication (hs : List Host) (rd : RD) (k : String) (c : Chains)
    (hok : compile_rules (fsC10 hs) = .ok rd) (hc : rdLookup rd k = some c) :
    c.input.count wildAct = (hs.filter (fun h => h.hostname == k)).length ∧
    c.output.count wildAct = (hs.filter (fun h => h.hostname == k)).length := by
  have h1 : compile_rules (fsC10 hs) =
      (((fsC10 hs).rules.mapM
        (ruleTuples (hbniD (fsC10 hs)) (nbnD (fsC10 hs)) [] (protoPortD (fsC10 hs)))).map
          List.flatten >>= fun compiled => spliceTuples [] hs compiled []) := rfl
  have h2 : ((fsC10 hs).rules.mapM
      (ruleTuples (hbniD (fsC10 hs)) (nbnD (fsC10 hs)) [] (protoPortD (fsC10 hs)))) =
      (ruleTuples (hbniD (fsC10 hs)) (nbnD (fsC10 hs)) [] (protoPortD (fsC10 hs)) c10rule >>=
        fun a => pure [a]) := rfl
  have hcomp : compile_rules (fsC10 hs) = spliceTuples [] hs [t10] [] := by
    rw [h1]
    rw [show (((fsC10 hs).rules.mapM
      (ruleTuples (hbniD (fsC10 hs)) (nbnD (fsC10 hs)) [] (protoPortD (fsC10 hs)))).map
        List.flatten) = Except.ok [t10] from by rw [h2, ruleTuples_c10 hs]; rfl]
    rfl
  rw [hcomp] at hok
  rw [show spliceTuples ([] : List (String × (Nat × Nat))) hs [t10] [] =
        (spliceHosts [] hs t10 hs [] >>= fun rd1 => spliceTuples [] hs [] rd1) from rfl] at hok
  obtain ⟨rd1, hS, hT⟩ := except_bind_ok _ _ _ hok
  rw [show spliceTuples ([] : List (String × (Nat × Nat))) hs [] rd1 = Except.ok rd1
        from rfl] at hT
  injection hT with hT
  rw [hT] at hS
  obtain ⟨hIn, hOut⟩ := spliceHosts_count_t10 [] hs hs [] rd hS k
  have hci : countIn rd k wildAct = c.input.count wildAct := by
    unfold countIn
    rw [hc]
  have hco : countOut rd k wildAct = c.output.count wildAct := by
    unfold countOut
    rw [hc]
  have hz : countIn ([] : RD) k wildAct = 0 := rfl
  have hz' : countOut ([] : RD) k wildAct = 0 := rfl
  constructor
  · rw [← hci, hIn, hz]
    omega
  · rw [← hco, hOut, hz']
    omega

/-- Witness for claim C10 at a host with two interface rows: the INPUT and
OUTPUT chains of `fw` hold two identical copies of the action line. -/
theorem c10_wildcard_row_duplication_witness :
    ∃ c, rdLookup ([("fw", ⟨[stateLine, wildAct, wildAct], [stateLine, wildAct, wildAct],
          ["-j DROP"]⟩)] : RD) "fw" = some c ∧
      c.input.count wildAct = ([fwA, fwB].filter (fun h => h.hostname == "fw")).length ∧
      c.output.count wildAct = ([fwA, fwB].filter (fun h => h.hostname == "fw")).length := by
  refine ⟨_, rfl, ?_⟩
  exact c10_wildcard_row_duplication [fwA, fwB]
    [("fw", ⟨[stateLine, wildAct, wildAct], [stateLine, wildAct, wildAct], ["-j DROP"]⟩)]
    "fw" ⟨[stateLine, wildAct, wildAct], [stateLine, wildAct, wildAct], ["-j DROP"]⟩
    (by decide) rfl

/-- The netmask is the low-bit mask `2^k - 1` shifted to the top `k` bits. -/
theorem netmask_eq (k : Nat) (hk : k ≤ 32) :
    netmask k = (2 ^ k - 1) <<< (32 - k) := by
  unfold netmask
  rw [Nat.shiftLeft_eq]
  have h1 : 2 ^ k * 2 ^ (32 - k) = 2 ^ 32 := by
    rw [← pow_add]
    congr 1
    omega
  rw [Nat.sub_mul, one_mul, h1]

/-- For a 32-bit address, clearing the low bits by truncated division (the
`net_addr` of the code) agrees with ANDing with the netmask (the "masked
by the prefix length" of the spec). -/
theorem net_addr_eq_maskedBy (a n : Nat) (ha : a < 2 ^ 32) (hn : n ≤ 32) :
    net_addr a n = maskedBy a n := by
  unfold net_addr maskedBy
  rw [netmask_eq n hn]
  apply Nat.eq_of_testBit_eq
  intro i
  rw [Nat.testBit_land, Nat.testBit_shiftLeft,
    show a / 2 ^ (32 - n) * 2 ^ (32 - n) = (a >>> (32 - n)) <<< (32 - n) from by
      rw [Nat.shiftLeft_eq, Nat.shiftRight_eq_div_pow],
    Nat.testBit_shiftLeft, Nat.testBit_shiftRight, Nat.testBit_two_pow_sub_one]
  by_cases hi : 32 - n ≤ i
  · simp only [hi, decide_True, Bool.true_and]
    rw [Nat.add_sub_cancel' hi]
    by_cases h2 : i - (32 - n) < n
    · simp [h2]
    · have hge : 2 ^ 32 ≤ 2 ^ i := Nat.pow_le_pow_right (by norm_num) (by omega)
      have hf : a.testBit i = false := Nat.testBit_eq_false_of_lt (lt_of_lt_of_le ha hge)
      simp [h2, hf]
  · simp [hi]

/-- Claim C5: the containment laws.  `Network.__contains__` of the code
tests `net_addr(other.ip_addr, self.masklen) == self.ip_addr` (plus the
prefix comparison for a network argument); for 32-bit addresses and
prefix lengths up to 32 this is exactly "the contained object's address
masked by the container's prefix equals the container's network address"
(together with child prefix ≥ parent prefix for networks). -/
theorem c5_containment_laws :
    (∀ (N : Network) (H : Host), H.ip_addr < 2 ^ 32 → N.masklen ≤ 32 →
      (N.containsHost H = true ↔ maskedBy H.ip_addr N.masklen = N.ip_addr)) ∧
    (∀ N1 N2 : Network, N2.ip_addr < 2 ^ 32 → N1.masklen ≤ 32 →
      (N1.containsNet N2 = true ↔
        maskedBy N2.ip_addr N1.masklen = N1.ip_addr ∧ N2.masklen ≥ N1.masklen)) := by
  constructor
  · intro N H ha hn
    unfold Network.containsHost
    rw [← net_addr_eq_maskedBy H.ip_addr N.masklen ha hn]
    simp [beq_iff_eq]
  · intro N1 N2 ha hn
    unfold Network.containsNet
    rw [← net_addr_eq_maskedBy N2.ip_addr N1.masklen ha hn]
    simp [Bool.and_eq_true, beq_iff_eq, decide_eq_true_eq]

/-- Witness for claim C5 at concrete networks and a concrete host. -/
theorem c5_containment_laws_witness :
    (lan2N.containsHost web2H = true ↔
      maskedBy web2H.ip_addr lan2N.masklen = lan2N.ip_addr) ∧
    (lan2N.containsNet lanA = true ↔
      maskedBy lanA.ip_addr lan2N.masklen = lan2N.ip_addr ∧ lanA.masklen ≥ lan2N.masklen) :=
  ⟨c5_containment_laws.1 lan2N web2H (by decide) (by decide),
   c5_containment_laws.2 lan2N lanA (by decide) (by decide)⟩

/-- Embeds `digitChar` of a digit value has the expected ASCII code. -/
theorem digitChar_toNat : ∀ d, d < 10 → (digitChar d).toNat = 48 + d := by decide

/-- Every character `decDigitsAux` produces is an ASCII digit. -/
theorem decDigitsAux_mem : ∀ (fuel n : Nat), ∀ c ∈ decDigitsAux fuel n,
    48 ≤ c.toNat ∧ c.toNat ≤ 57 := by
  intro fuel
  induction fuel with
  | zero => intro n c hc; cases hc
  | succ f ih =>
    intro n c hc
    cases n with
    | zero => cases hc
    | succ m =>
      rcases List.mem_cons.mp hc with hc | hc
      · subst hc
        have h10 : (m + 1) % 10 < 10 := Nat.mod_lt _ (by norm_num)
        rw [digitChar_toNat _ h10]
        omega
      · exact ih _ c hc

/-- Appending one digit multiplies the value by ten and adds the digit. -/
theorem valMSB_snoc (l : List Char) (c : Char) :
    valMSB (l ++ [c]) = 10 * valMSB l + (c.toNat - 48) := by
  simp [valMSB, List.foldl_append]

/-- The decimal digits of `n` evaluate back to `n`. -/
theorem valMSB_decDigits : ∀ (fuel n : Nat), n < fuel →
    valMSB ((decDigitsAux fuel n).reverse) = n := by
  intro fuel
  induction fuel with
  | zero => intro n h; omega
  | succ f ih =>
    intro n h
    cases n with
    | zero => simp [decDigitsAux, valMSB]
    | succ m =>
      show valMSB ((digitChar ((m + 1) % 10) :: decDigitsAux f ((m + 1) / 10)).reverse) = m + 1
      rw [List.reverse_cons, valMSB_snoc, ih ((m + 1) / 10) (by omega)]
      have h10 : (m + 1) % 10 < 10 := Nat.mod_lt _ (by norm_num)
      rw [digitChar_toNat _ h10]
      omega

/-- Round trip: parsing `natStr n` back gives `n`, so the decimal rendering
is injective. -/
theorem valMSB_natStr (n : Nat) : valMSB (natStr n).data = n := by
  unfold natStr
  by_cases h : n = 0
  · subst h
    decide
  · rw [if_neg h]
    exact valMSB_decDigits (n + 1) n (by omega)

/-- Python's decimal rendering of a natural number is injective. -/
theorem natStr_inj (a b : Nat) (h : natStr a = natStr b) : a = b := by
  rw [← valMSB_natStr a, ← valMSB_natStr b, h]

/-- Every character of `natStr` is an ASCII digit. -/
theorem natStr_digits (n : Nat) : ∀ c ∈ (natStr n).data, 48 ≤ c.toNat ∧ c.toNat ≤ 57 := by
  unfold natStr
  by_cases h : n = 0
  · subst h
    decide
  · rw [if_neg h]
    intro c hc
    exact decDigitsAux_mem (n + 1) n c (List.mem_reverse.mp hc)

/-- Every character of a dotted quad is a digit or the dot. -/
theorem ipStr_chars (a : Nat) : ∀ c ∈ (ipStr a).data,
    (48 ≤ c.toNat ∧ c.toNat ≤ 57) ∨ c = '.' := by
  intro c hc
  unfold ipStr at hc
  rw [String.data_append, String.data_append, String.data_append, String.data_append,
    String.data_append, String.data_append] at hc
  simp only [List.mem_append] at hc
  rcases hc with ((((((hc | hc) | hc) | hc) | hc) | hc) | hc)
  · exact Or.inl (natStr_digits _ c hc)
  · exact Or.inr (by cases hc with | head => rfl | tail _ hh => cases hh)
  · exact Or.inl (natStr_digits _ c hc)
  · exact Or.inr (by cases hc with | head => rfl | tail _ hh => cases hh)
  · exact Or.inl (natStr_digits _ c hc)
  · exact Or.inr (by cases hc with | head => rfl | tail _ hh => cases hh)
  · exact Or.inl (natStr_digits _ c hc)

/-- A dotted quad never contains a slash. -/
theorem ipStr_no_slash (a : Nat) : '/' ∉ (ipStr a).data := by
  intro h
  rcases ipStr_chars a '/' h with h | h
  · exact absurd h (by decide)
  · exact absurd h (by decide)

/-- A dotted quad never contains a dot inside one of its number groups, so
splitting on a separator character absent from the left parts is
unambiguous. -/
theorem sep_split (sep : Char) : ∀ (s1 s2 r1 r2 : List Char), sep ∉ s1 → sep ∉ s2 →
    s1 ++ sep :: r1 = s2 ++ sep :: r2 → s1 = s2 ∧ r1 = r2 := by
  intro s1
  induction s1 with
  | nil =>
    intro s2 r1 r2 _ h2 heq
    cases s2 with
    | nil =>
      injection heq with _ h
      exact ⟨rfl, h⟩
    | cons c t =>
      injection heq with hc _
      exact absurd (hc ▸ List.mem_cons_self c t) h2
  | cons c t ih =>
    intro s2 r1 r2 h1 h2 heq
    cases s2 with
    | nil =>
      injection heq with hc _
      exact absurd (hc ▸ List.mem_cons_self c t) h1
    | cons c' t' =>
      injection heq with hc hrest
      obtain ⟨ht, hr⟩ := ih t' r1 r2 (fun hm => h1 (List.mem_cons_of_mem c hm))
        (fun hm => h2 (List.mem_cons_of_mem c' hm)) hrest
      exact ⟨by rw [hc, ht], hr⟩

/-- The dotted quad as a right-nested list with explicit dot separators. -/
theorem ipStr_data_eq (a : Nat) : (ipStr a).data =
    (natStr (a / 16777216 % 256)).data ++ '.' ::
      ((natStr (a / 65536 % 256)).data ++ '.' ::
        ((natStr (a / 256 % 256)).data ++ '.' :: (natStr (a % 256)).data)) := by
  unfold ipStr
  rw [String.data_append, String.data_append, String.data_append, String.data_append,
    String.data_append, String.data_append]
  simp [List.append_assoc, show (".".data : List Char) = ['.'] from rfl]

/-- No number group of a decimal rendering contains the dot. -/
theorem natStr_no_dot (n : Nat) : ('.' : Char) ∉ (natStr n).data := by
  intro hm
  have hd := natStr_digits n '.' hm
  have h46 : ('.' : Char).toNat = 46 := rfl
  omega

/-- The dotted-quad rendering is injective on 32-bit values. -/
theorem ipStr_inj (a b : Nat) (ha : a < 2 ^ 32) (hb : b < 2 ^ 32)
    (h : ipStr a = ipStr b) : a = b := by
  have hd := congrArg String.data h
  rw [ipStr_data_eq, ipStr_data_eq] at hd
  obtain ⟨e1, hrest⟩ := sep_split '.' _ _ _ _ (natStr_no_dot _) (natStr_no_dot _) hd
  obtain ⟨e2, hrest2⟩ := sep_split '.' _ _ _ _ (natStr_no_dot _) (natStr_no_dot _) hrest
  obtain ⟨e3, e4⟩ := sep_split '.' _ _ _ _ (natStr_no_dot _) (natStr_no_dot _) hrest2
  have q1 : a / 16777216 % 256 = b / 16777216 % 256 := natStr_inj _ _ (String.ext e1)
  have q2 : a / 65536 % 256 = b / 65536 % 256 := natStr_inj _ _ (String.ext e2)
  have q3 : a / 256 % 256 = b / 256 % 256 := natStr_inj _ _ (String.ext e3)
  have q4 : a % 256 = b % 256 := natStr_inj _ _ (String.ext e4)
  omega

/-- A host rendering (no slash) never equals a network rendering (which
contains one). -/
theorem ipt_host_ne_net (h : Host) (n : Network) :
    ipt (.host h) ≠ ipt (.net n) := by
  intro he
  have hmem : '/' ∈ (ipt (Endpoint.net n)).data := by
    show '/' ∈ ((ipStr n.ip_addr ++ "/") ++ natStr n.masklen).data
    rw [String.data_append, String.data_append]
    exact List.mem_append.mpr (Or.inl (List.mem_append.mpr (Or.inr (by decide))))
  rw [← congrArg String.data he] at hmem
  exact ipStr_no_slash h.ip_addr hmem

/-- Two network renderings agree exactly when address and prefix agree. -/
theorem ipt_net_inj (n1 n2 : Network) (h1 : n1.ip_addr < 2 ^ 32) (h2 : n2.ip_addr < 2 ^ 32)
    (he : ipt (.net n1) = ipt (.net n2)) :
    n1.ip_addr = n2.ip_addr ∧ n1.masklen = n2.masklen := by
  have hd := congrArg String.data he
  have hform : ∀ m : Network, (ipt (Endpoint.net m)).data =
      (ipStr m.ip_addr).data ++ '/' :: (natStr m.masklen).data := by
    intro m
    show ((ipStr m.ip_addr ++ "/") ++ natStr m.masklen).data = _
    rw [String.data_append, String.data_append]
    simp [List.append_assoc, show ("/".data : List Char) = ['/'] from rfl]
  rw [hform, hform] at hd
  obtain ⟨e1, e2⟩ := sep_split '/' _ _ _ _ (ipStr_no_slash _) (ipStr_no_slash _) hd
  exact ⟨ipStr_inj _ _ h1 h2 (String.ext e1), natStr_inj _ _ (String.ext e2)⟩

/-- Claim C6 (amended): the skip test compares the iptables *renderings* of
the two endpoints.  A pair is skipped exactly when both endpoints are
non-wildcard and render identically; on hosts with 32-bit addresses this
means identical addresses (so both directions of the claim's host case
hold, and no emitted line can carry identical `-s` and `-d` for the same
concrete host), a host never renders like a network, but two networks
with the same address and prefix do render identically and are therefore
also skipped (`c6_network_pair_skipped`). -/
theorem c6_skip_characterization :
    (∀ t : CTuple, skipPair t = true ↔
      ∃ s d, t.src = some s ∧ t.dst = some d ∧ ipt s = ipt d) ∧
    (∀ h1 h2 : Host, h1.ip_addr < 2 ^ 32 → h2.ip_addr < 2 ^ 32 →
      (ipt (.host h1) = ipt (.host h2) ↔ h1.ip_addr = h2.ip_addr)) ∧
    (∀ (h : Host) (n : Network), ipt (.host h) ≠ ipt (.net n)) ∧
    (∀ n1 n2 : Network, n1.ip_addr < 2 ^ 32 → n2.ip_addr < 2 ^ 32 →
      (ipt (.net n1) = ipt (.net n2) ↔
        n1.ip_addr = n2.ip_addr ∧ n1.masklen = n2.masklen)) ∧
    (∀ (t : CTuple) (s d : Host), t.src = some (.host s) → t.dst = some (.host d) →
      s.ip_addr = d.ip_addr → skipPair t = true) := by
  refine ⟨?_, ?_, ipt_host_ne_net, ?_, ?_⟩
  · intro t
    unfold skipPair
    cases hs : t.src with
    | none =>
      simp [hs]
    | some s =>
      cases hd : t.dst with
      | none => simp [hs, hd]
      | some d => simp [hs, hd, beq_iff_eq]
  · intro h1 h2 ha hb
    constructor
    · intro he
      exact ipStr_inj h1.ip_addr h2.ip_addr ha hb he
    · intro he
      show ipStr h1.ip_addr = ipStr h2.ip_addr
      rw [he]
  · intro n1 n2 h1 h2
    constructor
    · exact ipt_net_inj n1 n2 h1 h2
    · intro ⟨ha, hm⟩
      show ipStr n1.ip_addr ++ "/" ++ natStr n1.masklen =
        ipStr n2.ip_addr ++ "/" ++ natStr n2.masklen
      rw [ha, hm]
  · intro t s d hs hd he
    unfold skipPair
    rw [hs, hd]
    show (ipt (.host s) == ipt (.host d)) = true
    rw [beq_iff_eq]
    show ipStr s.ip_addr = ipStr d.ip_addr
    rw [he]

/-- Witness for the amended claim C6 at concrete endpoints. -/
theorem c6_skip_characterization_witness :
    (ipt (.host fwH) = ipt (.host webH) ↔ fwH.ip_addr = webH.ip_addr) ∧
    (ipt (.net lanA) = ipt (.net lanB) ↔
      lanA.ip_addr = lanB.ip_addr ∧ lanA.masklen = lanB.masklen) :=
  ⟨c6_skip_characterization.2.1 fwH webH (by decide) (by decide),
   c6_skip_characterization.2.2.2.1 lanA lanB (by decide) (by decide)⟩
